import Mathlib

/-!
Verification of the `generate-plugins.py` documentation generator.

The script enumerates subdirectories of a `plugins` root, parses each
subdirectory's `Cargo.toml` (when present) with `toml.load`, and writes a
single Markdown file `plugins.md` listing each plugin with installation
instructions.

The embedding models the filesystem inputs as data:
* `PluginDir` is one subdirectory of the plugins root, with its name and the
  content of its `Cargo.toml` (`none` when the file is absent).
* `TomlFile` is the outcome of `toml.load`: either a decode failure or a
  parsed document, of which only the optional `[package]` table (with its
  optional `name`, `version`, `description` keys) is relevant to the script.
* The run is modelled step for step: `os.listdir` happens first (and may
  fail), then the output file is opened with mode "w" (truncating it), the
  header is written, and the loop appends one section per manifest-bearing
  directory, aborting on the first `toml` decode failure or missing-key
  lookup.  `generate_plugins_md` returns the resulting content of
  `plugins.md` (the previous content when listing failed, since the output
  file was never opened) together with the error, if any, that aborted the
  run.
-/

/-- The `[package]` table of a manifest, as the script reads it: the three
keys it looks up, each possibly absent.  `cargo_data["package"]["name"]` and
`["version"]` raise `KeyError` when absent; `description` is read with
`.get` and a default. -/
structure Package where
  name : Option String
  version : Option String
  description : Option String
deriving DecidableEq

/-- Outcome of `toml.load` on an existing `Cargo.toml`: a decode failure
(unparsable syntax), or a parsed document whose `[package]` table may be
absent (in which case `cargo_data["package"]` raises `KeyError`). -/
inductive TomlFile where
  | parseError : TomlFile
  | parsed : Option Package → TomlFile
deriving DecidableEq

/-- One subdirectory of the `plugins` root: its directory name and the
content of its `Cargo.toml`, `none` when `os.path.exists` is false. -/
structure PluginDir where
  dirName : String
  manifest : Option TomlFile
deriving DecidableEq

/-- The uncaught exceptions the script can die with: a `toml` decode error,
a `KeyError` on a missing mapping key, or an `OSError` from `os.listdir`. -/
inductive RunError where
  | tomlDecodeError : String → RunError
  | keyError : String → String → RunError
  | osError : RunError
deriving DecidableEq

/-- The fixed preamble written by lines 9-15 of the script, before any
plugin is examined. -/
def headerText : String :=
  "# LLA Plugins\n\n" ++
  "This document lists all available plugins for LLA and provides installation instructions.\n\n" ++
  "## Installation\n\n" ++
  "You can install all plugins at once using:\n\n" ++
  "```bash\nlla install --git https://github.com/triyanox/lla\n```\n\n" ++
  "Or you can install individual plugins as described below.\n\n" ++
  "## Available Plugins\n\n"

/-- The installation-options part of a section, written by lines 29-41 of
the script; it mentions only the directory name, not the manifest. -/
def sectionTail (plugin_dir : String) : String :=
  "**Installation Options:**\n\n" ++
  "1. Using LLA install command:\n" ++
  "```bash\n" ++
  "lla install --dir path/to/lla/plugins/" ++ plugin_dir ++ "\n" ++
  "```\n\n" ++
  "2. Manual installation:\n" ++
  "```bash\n" ++
  "git clone https://github.com/triyanox/lla\n" ++
  "cd lla/plugins/" ++ plugin_dir ++ "\n" ++
  "cargo build --release\n" ++
  "```\n\n" ++
  "Then, copy the generated `.so`, `.dll`, or `.dylib` file from the `target/release` directory to your LLA plugins directory.\n\n"

/-- The section written by lines 26-41 of the script for one plugin, given
the directory name and the three strings extracted from the manifest. -/
def sectionText (plugin_dir name description version : String) : String :=
  "### " ++ name ++ "\n\n" ++
  "**Description:** " ++ description ++ "\n\n" ++
  "**Version:** " ++ version ++ "\n\n" ++
  sectionTail plugin_dir

/-- Lines 17-41 of the loop body for one directory: skip when `Cargo.toml`
is absent, abort on a decode failure or a missing `package`, `name` or
`version` key (in the order the script performs the lookups), otherwise
produce the section text. -/
def processPlugin (p : PluginDir) : Except RunError (Option String) :=
  match p.manifest with
  | none => .ok none
  | some .parseError => .error (.tomlDecodeError p.dirName)
  | some (.parsed none) => .error (.keyError p.dirName "package")
  | some (.parsed (some pkg)) =>
    match pkg.name with
    | none => .error (.keyError p.dirName "name")
    | some name =>
      let description := pkg.description.getD "No description provided."
      match pkg.version with
      | none => .error (.keyError p.dirName "version")
      | some version => .ok (some (sectionText p.dirName name description version))

/-- The `for plugin_dir in plugin_dirs` loop: `acc` is the content written
to the (already open, already truncated) output file so far.  On the first
uncaught exception the loop stops; the `with` block closes the file, which
then holds exactly `acc`. -/
def emitLoop (acc : String) : List PluginDir → String × Option RunError
  | [] => (acc, none)
  | p :: rest =>
    match processPlugin p with
    | .error e => (acc, some e)
    | .ok none => emitLoop acc rest
    | .ok (some s) => emitLoop (acc ++ s) rest

/-- The body of the `with open(output_file, "w")` block: the file is
truncated, the header is written, then the loop runs.  Returns the final
content of the output file and the error, if any, that aborted the run. -/
def runGenerate (dirs : List PluginDir) : String × Option RunError :=
  emitLoop headerText dirs

/-- The whole script run, as a function of the filesystem: `listing` is the
result of `os.listdir` filtered to directories (`none` when the plugins
root is missing or unlistable, in which case line 7 raises before line 8
ever opens the output file), and `prev` is the previous content of
`plugins.md` (`none` when the file did not exist).  Returns the content of
`plugins.md` after the run and the error, if any. -/
def generate_plugins_md (listing : Option (List PluginDir)) (prev : Option String) :
    Option String × Option RunError :=
  match listing with
  | none => (prev, some .osError)
  | some plugin_dirs =>
    let r := runGenerate plugin_dirs
    (some r.1, r.2)

/-- The sections emitted by a run that completes the loop, tagged with the
directory that produced each. -/
def sectionOf (p : PluginDir) : Option (String × String) :=
  match processPlugin p with
  | .ok (some s) => some (p.dirName, s)
  | _ => none

/-- All (directory, section text) pairs emitted for a listing, in order. -/
def pluginSections (dirs : List PluginDir) : List (String × String) :=
  dirs.filterMap sectionOf

/-- The concatenation of the section texts of a listing, in order. -/
def joinSections : List PluginDir → String
  | [] => ""
  | p :: rest =>
    match processPlugin p with
    | .ok (some s) => s ++ joinSections rest
    | _ => joinSections rest

/-- The entries of `pluginSections` that belong to directory `d`. -/
def entriesFor (d : String) (dirs : List PluginDir) : List (String × String) :=
  (pluginSections dirs).filter (fun e => e.1 == d)

/-- `sub` occurs verbatim (as a contiguous substring) in `s`. -/
def strContains (s sub : String) : Prop :=
  ∃ l r, s = l ++ sub ++ r

/-- The `name` key reachable from a parsed manifest, when it exists. -/
def nameOf : TomlFile → Option String
  | .parsed (some pkg) => pkg.name
  | _ => none

/-- The `version` key reachable from a parsed manifest, when it exists. -/
def versionOf : TomlFile → Option String
  | .parsed (some pkg) => pkg.version
  | _ => none

example :
    processPlugin ⟨"foo", some (.parsed (some ⟨some "foo", none, none⟩))⟩ =
      .error (.keyError "foo" "version") := rfl

example :
    runGenerate [⟨"bar", none⟩] = (headerText, none) := rfl

/-! Helper lemmas about the loop and the emitted sections. -/

lemma sectionOf_inv {p : PluginDir} {e : String × String} (h : sectionOf p = some e) :
    processPlugin p = .ok (some e.2) ∧ e.1 = p.dirName := by
  unfold sectionOf at h
  split at h
  · cases h
    exact ⟨by assumption, rfl⟩
  · cases h

lemma sectionOf_of_ok {p : PluginDir} {s : String} (h : processPlugin p = .ok (some s)) :
    sectionOf p = some (p.dirName, s) := by
  unfold sectionOf
  rw [h]

lemma emitLoop_ok :
    ∀ (dirs : List PluginDir) (acc out : String), emitLoop acc dirs = (out, none) →
      out = acc ++ joinSections dirs := by
  intro dirs
  induction dirs with
  | nil =>
    intro acc out h
    simp only [emitLoop, Prod.mk.injEq] at h
    rw [← h.1, joinSections, String.append_empty]
  | cons p rest ih =>
    intro acc out h
    unfold emitLoop at h
    unfold joinSections
    cases hp : processPlugin p with
    | error e =>
      rw [hp] at h
      simp at h
    | ok o =>
      rw [hp] at h
      cases o with
      | none => exact ih acc out h
      | some s =>
        rw [ih (acc ++ s) out h, String.append_assoc]

lemma emitLoop_err :
    ∀ (dirs : List PluginDir) (acc out : String) (e : RunError),
      emitLoop acc dirs = (out, some e) →
      ∃ pre p suf, dirs = pre ++ p :: suf ∧ processPlugin p = .error e ∧
        (∀ q ∈ pre, ∃ o, processPlugin q = .ok o) ∧ out = acc ++ joinSections pre := by
  intro dirs
  induction dirs with
  | nil =>
    intro acc out e h
    simp [emitLoop] at h
  | cons p rest ih =>
    intro acc out e h
    unfold emitLoop at h
    cases hp : processPlugin p with
    | error e' =>
      rw [hp] at h
      simp only [Prod.mk.injEq, Option.some.injEq] at h
      refine ⟨[], p, rest, rfl, ?_, by simp, ?_⟩
      · rw [hp, h.2]
      · rw [← h.1, joinSections, String.append_empty]
    | ok o =>
      rw [hp] at h
      cases o with
      | none =>
        obtain ⟨pre, q, suf, hsplit, hq, hpre, hout⟩ := ih acc out e h
        refine ⟨p :: pre, q, suf, by rw [hsplit, List.cons_append], hq, ?_, ?_⟩
        · intro q' hq'
          rcases List.mem_cons.mp hq' with h' | h'
          · exact ⟨none, by rw [h', hp]⟩
          · exact hpre q' h'
        · rw [hout, joinSections, hp]
      | some s =>
        obtain ⟨pre, q, suf, hsplit, hq, hpre, hout⟩ := ih (acc ++ s) out e h
        refine ⟨p :: pre, q, suf, by rw [hsplit, List.cons_append], hq, ?_, ?_⟩
        · intro q' hq'
          rcases List.mem_cons.mp hq' with h' | h'
          · exact ⟨some s, by rw [h', hp]⟩
          · exact hpre q' h'
        · rw [hout, joinSections, hp, String.append_assoc]

lemma strContains_append_left {t sub : String} (x : String) (h : strContains t sub) :
    strContains (x ++ t) sub := by
  obtain ⟨l, r, hl⟩ := h
  exact ⟨x ++ l, r, by rw [hl]; simp [String.append_assoc]⟩

lemma strContains_here (sub l r : String) : strContains (l ++ sub ++ r) sub :=
  ⟨l, r, rfl⟩

lemma joinSections_cons (p : PluginDir) (rest : List PluginDir) :
    joinSections (p :: rest) =
      (match sectionOf p with | some e => e.2 | none => "") ++ joinSections rest := by
  rw [joinSections]
  cases hq : processPlugin p with
  | error e => simp [sectionOf, hq]
  | ok o => cases o <;> simp [sectionOf, hq]

lemma contains_joinSections :
    ∀ (dirs : List PluginDir) (d s : String), (d, s) ∈ pluginSections dirs →
      strContains (joinSections dirs) s := by
  intro dirs
  induction dirs with
  | nil =>
    intro d s h
    simp [pluginSections] at h
  | cons p rest ih =>
    intro d s h
    unfold pluginSections at h
    rw [List.filterMap_cons] at h
    rw [joinSections_cons]
    cases hp : sectionOf p with
    | none =>
      rw [hp] at h
      exact strContains_append_left _ (ih d s h)
    | some e =>
      rw [hp] at h
      rcases List.mem_cons.mp h with h' | h'
      · rw [← h']
        exact ⟨"", joinSections rest, by rw [String.empty_append]⟩
      · exact strContains_append_left _ (ih d s h')

lemma mem_pluginSections_key {dirs : List PluginDir} {e : String × String}
    (h : e ∈ pluginSections dirs) : e.1 ∈ dirs.map PluginDir.dirName := by
  rcases List.mem_filterMap.mp h with ⟨q, hq, hsec⟩
  exact List.mem_map.mpr ⟨q, hq, (sectionOf_inv hsec).2.symm⟩

lemma entriesFor_nil_of_not_mem {d : String} {dirs : List PluginDir}
    (h : d ∉ dirs.map PluginDir.dirName) : entriesFor d dirs = [] := by
  unfold entriesFor
  rw [List.filter_eq_nil_iff]
  intro e he
  simp only [beq_iff_eq]
  intro hd
  exact h (hd ▸ mem_pluginSections_key he)

lemma entriesFor_cons (d : String) (q : PluginDir) (rest : List PluginDir) :
    entriesFor d (q :: rest) =
      ((sectionOf q).toList.filter (fun e => e.1 == d)) ++ entriesFor d rest := by
  unfold entriesFor pluginSections
  rw [List.filterMap_cons]
  cases sectionOf q with
  | none => simp
  | some e =>
    by_cases hpe : (e.1 == d) = true
    · simp [List.filter_cons, hpe]
    · simp [List.filter_cons, hpe]

lemma entriesFor_eq_of_nodup :
    ∀ (dirs : List PluginDir) (p : PluginDir),
      (dirs.map PluginDir.dirName).Nodup → p ∈ dirs →
      entriesFor p.dirName dirs = (sectionOf p).toList := by
  intro dirs
  induction dirs with
  | nil =>
    intro p _ hp
    simp at hp
  | cons q rest ih =>
    intro p hnd hp
    rw [List.map_cons, List.nodup_cons] at hnd
    obtain ⟨hq_not, hnd'⟩ := hnd
    rw [entriesFor_cons]
    rcases List.mem_cons.mp hp with h' | h'
    · subst h'
      rw [entriesFor_nil_of_not_mem hq_not]
      cases hs : sectionOf p with
      | none => simp
      | some e =>
        have he := (sectionOf_inv hs).2
        simp [he]
    · have hpr : p.dirName ∈ rest.map PluginDir.dirName := List.mem_map.mpr ⟨p, h', rfl⟩
      have hne : ¬(q.dirName = p.dirName) := fun hEq => hq_not (hEq ▸ hpr)
      rw [ih p hnd' h']
      cases hs : sectionOf q with
      | none => simp
      | some e =>
        have he := (sectionOf_inv hs).2
        simp [he, hne]

lemma processPlugin_valid {p : PluginDir} {pkg : Package} {n v : String}
    (hman : p.manifest = some (.parsed (some pkg)))
    (hn : pkg.name = some n) (hv : pkg.version = some v) :
    processPlugin p =
      .ok (some (sectionText p.dirName n (pkg.description.getD "No description provided.") v)) := by
  simp [processPlugin, hman, hn, hv]

lemma sectionText_contains_name (d n desc v : String) :
    strContains (sectionText d n desc v) ("### " ++ n) := by
  refine ⟨"", "\n\n" ++ ("**Description:** " ++ (desc ++ ("\n\n" ++ ("**Version:** " ++
    (v ++ ("\n\n" ++ sectionTail d)))))), ?_⟩
  simp only [sectionText, String.append_assoc, String.empty_append]

lemma sectionText_contains_description (d n desc v : String) :
    strContains (sectionText d n desc v) desc := by
  refine ⟨"### " ++ n ++ "\n\n" ++ "**Description:** ",
    "\n\n" ++ ("**Version:** " ++ (v ++ ("\n\n" ++ sectionTail d))), ?_⟩
  simp only [sectionText, String.append_assoc, String.empty_append]

lemma sectionText_contains_version (d n desc v : String) :
    strContains (sectionText d n desc v) ("**Version:** " ++ v ++ "\n\n") := by
  refine ⟨"### " ++ n ++ "\n\n" ++ "**Description:** " ++ desc ++ "\n\n", sectionTail d, ?_⟩
  simp only [sectionText, String.append_assoc, String.empty_append]

lemma sectionText_contains_path (d n desc v : String) :
    strContains (sectionText d n desc v) ("cd lla/plugins/" ++ d ++ "\n") := by
  refine ⟨"### " ++ n ++ "\n\n" ++ "**Description:** " ++ desc ++ "\n\n" ++
    "**Version:** " ++ v ++ "\n\n" ++
    "**Installation Options:**\n\n" ++
    "1. Using LLA install command:\n" ++
    "```bash\n" ++
    "lla install --dir path/to/lla/plugins/" ++ d ++ "\n" ++
    "```\n\n" ++
    "2. Manual installation:\n" ++
    "```bash\n" ++
    "git clone https://github.com/triyanox/lla\n",
    "cargo build --release\n" ++
    "```\n\n" ++
    "Then, copy the generated `.so`, `.dll`, or `.dylib` file from the `target/release` directory to your LLA plugins directory.\n\n", ?_⟩
  simp only [sectionText, sectionTail, String.append_assoc, String.empty_append]

/-! Claim theorems. -/

/-- C2: loading a manifest fails (raises an uncaught error aborting the run)
if and only if the manifest file exists but is malformed — the `name` or
`version` field is not reachable, or the syntax is unparsable — and in
particular it never fails merely because the optional `description` field is
absent (the right-hand side does not mention the description). -/
theorem c2_loadManifest_fails_iff (p : PluginDir) :
    (∃ e, processPlugin p = Except.error e) ↔
      (∃ t, p.manifest = some t ∧
        (t = TomlFile.parseError ∨ nameOf t = none ∨ versionOf t = none)) := by
  cases p with
  | mk d man =>
    cases man with
    | none => simp [processPlugin]
    | some t =>
      cases t with
      | parseError => simp [processPlugin, nameOf, versionOf]
      | parsed opkg =>
        cases opkg with
        | none => simp [processPlugin, nameOf, versionOf]
        | some pkg =>
          cases hn : pkg.name with
          | none => simp [processPlugin, nameOf, versionOf, hn]
          | some n =>
            cases hv : pkg.version with
            | none => simp [processPlugin, nameOf, versionOf, hn, hv]
            | some v => simp [processPlugin, nameOf, versionOf, hn, hv]

/-- Witness for C2: a manifest whose `[package]` table lacks `name` (but has
`version` and no `description`) makes `processPlugin` raise. -/
theorem c2_loadManifest_fails_iff_witness :
    ∃ e, processPlugin ⟨"acme", some (TomlFile.parsed (some ⟨none, some "0.1.0", none⟩))⟩ =
      Except.error e :=
  (c2_loadManifest_fails_iff ⟨"acme", some (TomlFile.parsed (some ⟨none, some "0.1.0", none⟩))⟩).mpr
    ⟨TomlFile.parsed (some ⟨none, some "0.1.0", none⟩), rfl, Or.inr (Or.inl rfl)⟩

/-- C4: a plugin directory lacking a manifest file is silently skipped: its
processing raises no error and yields no section, and no section keyed by
that directory appears anywhere among the emitted sections. -/
theorem c4_missing_manifest_skipped (dirs : List PluginDir) (p : PluginDir)
    (hnd : (dirs.map PluginDir.dirName).Nodup) (hmem : p ∈ dirs)
    (hman : p.manifest = none) :
    processPlugin p = Except.ok none ∧ entriesFor p.dirName dirs = [] := by
  have hproc : processPlugin p = .ok none := by simp [processPlugin, hman]
  refine ⟨hproc, ?_⟩
  rw [entriesFor_eq_of_nodup dirs p hnd hmem]
  have hsec : sectionOf p = none := by
    unfold sectionOf
    rw [hproc]
  rw [hsec]
  rfl

/-- Witness for C4: directory `bar` has no `Cargo.toml` and is skipped while
a sibling `foo` is listed. -/
theorem c4_missing_manifest_skipped_witness :
    processPlugin ⟨"bar", none⟩ = Except.ok none ∧
      entriesFor "bar"
        [⟨"bar", none⟩, ⟨"foo", some (TomlFile.parsed (some ⟨some "foo", some "1.0", none⟩))⟩] = [] :=
  c4_missing_manifest_skipped
    [⟨"bar", none⟩, ⟨"foo", some (TomlFile.parsed (some ⟨some "foo", some "1.0", none⟩))⟩]
    ⟨"bar", none⟩ (by decide) (by decide) rfl

/-- C5: when the `description` key is absent, the rendered section for the
plugin contains the literal text `No description provided.` -/
theorem c5_missing_description_placeholder (p : PluginDir) (pkg : Package) (n v : String)
    (hman : p.manifest = some (TomlFile.parsed (some pkg)))
    (hn : pkg.name = some n) (hdesc : pkg.description = none)
    (hv : pkg.version = some v) :
    ∃ s, processPlugin p = Except.ok (some s) ∧
      strContains s "No description provided." := by
  have hproc := processPlugin_valid hman hn hv
  rw [hdesc, Option.getD_none] at hproc
  exact ⟨_, hproc, sectionText_contains_description p.dirName n "No description provided." v⟩

/-- Witness for C5: a concrete manifest with `name` and `version` but no
`description` renders the placeholder text. -/
theorem c5_missing_description_placeholder_witness :
    ∃ s, processPlugin ⟨"foo", some (TomlFile.parsed (some ⟨some "foo", some "0.1.0", none⟩))⟩ =
        Except.ok (some s) ∧ strContains s "No description provided." :=
  c5_missing_description_placeholder
    ⟨"foo", some (TomlFile.parsed (some ⟨some "foo", some "0.1.0", none⟩))⟩
    ⟨some "foo", some "0.1.0", none⟩ "foo" "0.1.0" rfl rfl rfl rfl

/-- C6: every run that completes the loop without an error produces a file
whose content begins with the fixed header text, regardless of how many
plugins were discovered (including zero). -/
theorem c6_output_begins_with_header (dirs : List PluginDir) (content : String)
    (h : runGenerate dirs = (content, none)) :
    ∃ rest, content = headerText ++ rest :=
  ⟨joinSections dirs, emitLoop_ok dirs headerText content h⟩

/-- Witness for C6: the empty listing (zero plugins) succeeds and its output
starts with the header. -/
theorem c6_output_begins_with_header_witness :
    ∃ rest, headerText = headerText ++ rest :=
  c6_output_begins_with_header [] headerText rfl

/-- C7: running the generator twice in succession over an unchanged plugins
directory produces byte-identical output files: the second run, whose
previous-file state is the first run's output, writes exactly the first
run's output again. -/
theorem c7_idempotent (listing : List PluginDir) (prev : Option String) :
    (generate_plugins_md (some listing)
        ((generate_plugins_md (some listing) prev).1)).1 =
      (generate_plugins_md (some listing) prev).1 := rfl

/-- Witness for C7 at a concrete listing and previous file. -/
theorem c7_idempotent_witness :
    (generate_plugins_md (some [⟨"foo", some (TomlFile.parsed (some ⟨some "foo", some "1.0", some "a plugin"⟩))⟩])
        ((generate_plugins_md (some [⟨"foo", some (TomlFile.parsed (some ⟨some "foo", some "1.0", some "a plugin"⟩))⟩])
          (some "old")).1)).1 =
      (generate_plugins_md (some [⟨"foo", some (TomlFile.parsed (some ⟨some "foo", some "1.0", some "a plugin"⟩))⟩])
        (some "old")).1 :=
  c7_idempotent [⟨"foo", some (TomlFile.parsed (some ⟨some "foo", some "1.0", some "a plugin"⟩))⟩] (some "old")

/-- C8: a manifest that parses as valid TOML but lacks a `[package]` table
aborts the run with an uncaught lookup failure on the `package` key, exactly
like a manifest missing `name` or `version`; after the abort the output file
holds only the header. -/
theorem c8_missing_package_table_aborts (d : String) :
    processPlugin ⟨d, some (TomlFile.parsed none)⟩ =
        Except.error (RunError.keyError d "package") ∧
      runGenerate [⟨d, some (TomlFile.parsed none)⟩] =
        (headerText, some (RunError.keyError d "package")) :=
  ⟨rfl, rfl⟩

/-- Witness for C8 at a concrete directory name. -/
theorem c8_missing_package_table_aborts_witness :
    processPlugin ⟨"acme", some (TomlFile.parsed none)⟩ =
        Except.error (RunError.keyError "acme" "package") ∧
      runGenerate [⟨"acme", some (TomlFile.parsed none)⟩] =
        (headerText, some (RunError.keyError "acme" "package")) :=
  c8_missing_package_table_aborts "acme"

/-- C9: when the plugins root is missing or unlistable, the run fails during
directory listing, before the output file is ever opened, and the previous
`plugins.md` (whatever it was, including absent) is left unchanged. -/
theorem c9_missing_root_leaves_output (prev : Option String) :
    generate_plugins_md none prev = (prev, some RunError.osError) := rfl

/-- Witness for C9: a concrete previous file survives a failed listing. -/
theorem c9_missing_root_leaves_output_witness :
    generate_plugins_md none (some "kept intact") =
      (some "kept intact", some RunError.osError) :=
  c9_missing_root_leaves_output (some "kept intact")

/-- C1 (counterexample): with a previous `plugins.md` of `"previous contents"`
and a single plugin whose manifest lacks the required `version` key, the run
aborts — but the output file is NOT left byte-for-byte untouched: line 8
opened it with mode "w" (truncating it) before any manifest was parsed, so
after the abort it holds the header, not the previous contents. -/
theorem c1_not_untouched_counterexample :
    (generate_plugins_md
        (some [⟨"foo", some (TomlFile.parsed (some ⟨some "foo", none, none⟩))⟩])
        (some "previous contents")).2 = some (RunError.keyError "foo" "version") ∧
      (generate_plugins_md
        (some [⟨"foo", some (TomlFile.parsed (some ⟨some "foo", none, none⟩))⟩])
        (some "previous contents")).1 ≠ some "previous contents" := by
  constructor
  · rfl
  · have h1 : (generate_plugins_md
        (some [⟨"foo", some (TomlFile.parsed (some ⟨some "foo", none, none⟩))⟩])
        (some "previous contents")).1 = some headerText := rfl
    rw [h1]
    intro h
    injection h with h'
    have h2 : headerText.data.head? = ("previous contents" : String).data.head? :=
      congrArg (fun s => s.data.head?) h'
    exact absurd h2 (by decide)

/-- C1 (amended): if any manifest file exists but is malformed, the run
aborts with an uncaught error; but the output file is opened (and truncated)
before the plugin loop, so the previous `plugins.md` is NOT preserved: after
the aborted run the output file holds the fixed header followed by the
sections of exactly the plugins processed before the failing one. -/
theorem c1_amended_partial_output (dirs : List PluginDir) (prev out : Option String)
    (e : RunError) (h : generate_plugins_md (some dirs) prev = (out, some e)) :
    ∃ pre p suf, dirs = pre ++ p :: suf ∧ processPlugin p = Except.error e ∧
      (∀ q ∈ pre, ∃ o, processPlugin q = Except.ok o) ∧
      out = some (headerText ++ joinSections pre) := by
  have h' : (some (runGenerate dirs).1, (runGenerate dirs).2) = (out, some e) := h
  rw [Prod.mk.injEq] at h'
  obtain ⟨h1, h2⟩ := h'
  obtain ⟨pre, p, suf, hsplit, hp, hpre, hout⟩ :=
    emitLoop_err dirs headerText (runGenerate dirs).1 e (by rw [← h2]; exact Prod.mk.eta.symm)
  exact ⟨pre, p, suf, hsplit, hp, hpre, by rw [← h1, hout]⟩

/-- Witness for the amended C1: a valid plugin `alpha` followed by a plugin
`beta` whose manifest is unparsable; the aborted run leaves the header plus
the `alpha` section in the output file. -/
theorem c1_amended_partial_output_witness :
    ∃ pre p suf,
      ([⟨"alpha", some (TomlFile.parsed (some ⟨some "alpha", some "1.0", none⟩))⟩,
        ⟨"beta", some TomlFile.parseError⟩] : List PluginDir) = pre ++ p :: suf ∧
      processPlugin p = Except.error (RunError.tomlDecodeError "beta") ∧
      (∀ q ∈ pre, ∃ o, processPlugin q = Except.ok o) ∧
      some (headerText ++ sectionText "alpha" "alpha" "No description provided." "1.0") =
        some (headerText ++ joinSections pre) :=
  c1_amended_partial_output
    [⟨"alpha", some (TomlFile.parsed (some ⟨some "alpha", some "1.0", none⟩))⟩,
     ⟨"beta", some TomlFile.parseError⟩]
    (some "old")
    (some (headerText ++ sectionText "alpha" "alpha" "No description provided." "1.0"))
    (RunError.tomlDecodeError "beta") rfl

/-- C3: for every plugin directory whose manifest is valid (parsable, with
`name` and `version` present), exactly one section keyed by that directory
is emitted; it contains `### <name>` and the `version` verbatim, the
`description` verbatim when that key is present, and on a successful run it
appears verbatim in the produced output file. -/
theorem c3_valid_manifest_unique_section (dirs : List PluginDir) (p : PluginDir)
    (pkg : Package) (n v : String)
    (hnd : (dirs.map PluginDir.dirName).Nodup) (hmem : p ∈ dirs)
    (hman : p.manifest = some (TomlFile.parsed (some pkg)))
    (hn : pkg.name = some n) (hv : pkg.version = some v) :
    ∃ s, entriesFor p.dirName dirs = [(p.dirName, s)] ∧
      strContains s ("### " ++ n) ∧
      strContains s ("**Version:** " ++ v ++ "\n\n") ∧
      (∀ d, pkg.description = some d → strContains s d) ∧
      ((runGenerate dirs).2 = none → strContains (runGenerate dirs).1 s) := by
  have hproc := processPlugin_valid hman hn hv
  have hsec := sectionOf_of_ok hproc
  refine ⟨sectionText p.dirName n (pkg.description.getD "No description provided.") v,
    ?_, sectionText_contains_name _ _ _ _, sectionText_contains_version _ _ _ _, ?_, ?_⟩
  · rw [entriesFor_eq_of_nodup dirs p hnd hmem, hsec]
    rfl
  · intro d hd
    rw [hd, Option.getD_some]
    exact sectionText_contains_description _ _ _ _
  · intro hok
    have hmem1 : (p.dirName,
        sectionText p.dirName n (pkg.description.getD "No description provided.") v) ∈
        entriesFor p.dirName dirs := by
      rw [entriesFor_eq_of_nodup dirs p hnd hmem, hsec]
      exact List.mem_singleton.mpr rfl
    have hmem2 := List.mem_of_mem_filter hmem1
    have hcontent : (runGenerate dirs).1 = headerText ++ joinSections dirs :=
      emitLoop_ok dirs headerText _ (by rw [← hok]; exact Prod.mk.eta.symm)
    rw [hcontent]
    exact strContains_append_left headerText (contains_joinSections dirs _ _ hmem2)

/-- Witness for C3: a one-plugin listing with a full manifest. -/
theorem c3_valid_manifest_unique_section_witness :
    ∃ s, entriesFor "foo"
        [⟨"foo", some (TomlFile.parsed (some ⟨some "foolib", some "0.2.0", some "A demo"⟩))⟩] =
        [("foo", s)] ∧
      strContains s ("### " ++ "foolib") ∧
      strContains s ("**Version:** " ++ "0.2.0" ++ "\n\n") ∧
      (∀ d, (some "A demo" : Option String) = some d → strContains s d) ∧
      ((runGenerate
          [⟨"foo", some (TomlFile.parsed (some ⟨some "foolib", some "0.2.0", some "A demo"⟩))⟩]).2 = none →
        strContains (runGenerate
          [⟨"foo", some (TomlFile.parsed (some ⟨some "foolib", some "0.2.0", some "A demo"⟩))⟩]).1 s) :=
  c3_valid_manifest_unique_section
    [⟨"foo", some (TomlFile.parsed (some ⟨some "foolib", some "0.2.0", some "A demo"⟩))⟩]
    ⟨"foo", some (TomlFile.parsed (some ⟨some "foolib", some "0.2.0", some "A demo"⟩))⟩
    ⟨some "foolib", some "0.2.0", some "A demo"⟩ "foolib" "0.2.0"
    (by decide) (by decide) rfl rfl rfl

/-- C10: sections are keyed by plugin directory, not deduplicated by
manifest name: two distinct directories whose manifests declare the same
`name` each contribute their own section, both headed `### <name>`, each
using its own directory name in the install paths. -/
theorem c10_duplicate_names_two_sections (dirs : List PluginDir) (p₁ p₂ : PluginDir)
    (pkg₁ pkg₂ : Package) (n v₁ v₂ : String)
    (hnd : (dirs.map PluginDir.dirName).Nodup)
    (h₁ : p₁ ∈ dirs) (h₂ : p₂ ∈ dirs) (hne : p₁.dirName ≠ p₂.dirName)
    (hman₁ : p₁.manifest = some (TomlFile.parsed (some pkg₁)))
    (hn₁ : pkg₁.name = some n) (hv₁ : pkg₁.version = some v₁)
    (hman₂ : p₂.manifest = some (TomlFile.parsed (some pkg₂)))
    (hn₂ : pkg₂.name = some n) (hv₂ : pkg₂.version = some v₂) :
    ∃ s₁ s₂,
      entriesFor p₁.dirName dirs = [(p₁.dirName, s₁)] ∧
      entriesFor p₂.dirName dirs = [(p₂.dirName, s₂)] ∧
      (p₁.dirName, s₁) ∈ pluginSections dirs ∧
      (p₂.dirName, s₂) ∈ pluginSections dirs ∧
      (p₁.dirName, s₁) ≠ (p₂.dirName, s₂) ∧
      strContains s₁ ("### " ++ n) ∧ strContains s₂ ("### " ++ n) ∧
      strContains s₁ ("cd lla/plugins/" ++ p₁.dirName ++ "\n") ∧
      strContains s₂ ("cd lla/plugins/" ++ p₂.dirName ++ "\n") := by
  have hp₁ := processPlugin_valid hman₁ hn₁ hv₁
  have hp₂ := processPlugin_valid hman₂ hn₂ hv₂
  have hs₁ := sectionOf_of_ok hp₁
  have hs₂ := sectionOf_of_ok hp₂
  have he₁ : entriesFor p₁.dirName dirs =
      [(p₁.dirName, sectionText p₁.dirName n (pkg₁.description.getD "No description provided.") v₁)] := by
    rw [entriesFor_eq_of_nodup dirs p₁ hnd h₁, hs₁]
    rfl
  have he₂ : entriesFor p₂.dirName dirs =
      [(p₂.dirName, sectionText p₂.dirName n (pkg₂.description.getD "No description provided.") v₂)] := by
    rw [entriesFor_eq_of_nodup dirs p₂ hnd h₂, hs₂]
    rfl
  have hm₁ : (p₁.dirName,
      sectionText p₁.dirName n (pkg₁.description.getD "No description provided.") v₁) ∈
      entriesFor p₁.dirName dirs := by
    rw [he₁]
    exact List.mem_singleton.mpr rfl
  have hm₂ : (p₂.dirName,
      sectionText p₂.dirName n (pkg₂.description.getD "No description provided.") v₂) ∈
      entriesFor p₂.dirName dirs := by
    rw [he₂]
    exact List.mem_singleton.mpr rfl
  refine ⟨_, _, he₁, he₂, List.mem_of_mem_filter hm₁, List.mem_of_mem_filter hm₂, ?_,
    sectionText_contains_name _ _ _ _, sectionText_contains_name _ _ _ _,
    sectionText_contains_path _ _ _ _, sectionText_contains_path _ _ _ _⟩
  intro heq
  exact hne (congrArg Prod.fst heq)

/-- Witness for C10: directories `one` and `two` both declare the manifest
name `dup`. -/
theorem c10_duplicate_names_two_sections_witness :
    ∃ s₁ s₂,
      entriesFor "one"
        [⟨"one", some (TomlFile.parsed (some ⟨some "dup", some "1.0", none⟩))⟩,
         ⟨"two", some (TomlFile.parsed (some ⟨some "dup", some "2.0", none⟩))⟩] = [("one", s₁)] ∧
      entriesFor "two"
        [⟨"one", some (TomlFile.parsed (some ⟨some "dup", some "1.0", none⟩))⟩,
         ⟨"two", some (TomlFile.parsed (some ⟨some "dup", some "2.0", none⟩))⟩] = [("two", s₂)] ∧
      ("one", s₁) ∈ pluginSections
        [⟨"one", some (TomlFile.parsed (some ⟨some "dup", some "1.0", none⟩))⟩,
         ⟨"two", some (TomlFile.parsed (some ⟨some "dup", some "2.0", none⟩))⟩] ∧
      ("two", s₂) ∈ pluginSections
        [⟨"one", some (TomlFile.parsed (some ⟨some "dup", some "1.0", none⟩))⟩,
         ⟨"two", some (TomlFile.parsed (some ⟨some "dup", some "2.0", none⟩))⟩] ∧
      (("one", s₁) : String × String) ≠ ("two", s₂) ∧
      strContains s₁ ("### " ++ "dup") ∧ strContains s₂ ("### " ++ "dup") ∧
      strContains s₁ ("cd lla/plugins/" ++ "one" ++ "\n") ∧
      strContains s₂ ("cd lla/plugins/" ++ "two" ++ "\n") :=
  c10_duplicate_names_two_sections
    [⟨"one", some (TomlFile.parsed (some ⟨some "dup", some "1.0", none⟩))⟩,
     ⟨"two", some (TomlFile.parsed (some ⟨some "dup", some "2.0", none⟩))⟩]
    ⟨"one", some (TomlFile.parsed (some ⟨some "dup", some "1.0", none⟩))⟩
    ⟨"two", some (TomlFile.parsed (some ⟨some "dup", some "2.0", none⟩))⟩
    ⟨some "dup", some "1.0", none⟩ ⟨some "dup", some "2.0", none⟩
    "dup" "1.0" "2.0"
    (by decide) (by decide) (by decide) (by decide)
    rfl rfl rfl rfl rfl rfl
